import Mathlib

/-!
Shallow embedding of the Trackle device-side IoT client
(build/module/client/Trackle.js) together with proofs that settle the
frozen specification claims.  Buffers are modelled as lists of byte
values (List Nat, each element < 256), JS Map objects as association
lists with one entry per key, and the relevant methods of the Trackle
class as pure functions over explicit state.
-/

namespace Trackle

/-! ### JS Buffer primitives -/

/-- Node Buffer.slice(a, b) on a byte list (clamping semantics for
in-range and overflowing indices; the callers below only use it the way
the source does). -/
def jsSlice (l : List Nat) (a b : Nat) : List Nat :=
  (l.take b).drop a

/-- Node Buffer.slice(start, end) with JS number arguments: a negative
index is resolved relative to the buffer end (length + index), the
resolved indices are clamped to [0, length], and an end at or before
the start yields an empty buffer. -/
def jsSliceNode (l : List Nat) (a b : Int) : List Nat :=
  let len : Int := l.length
  let s : Int := if a < 0 then max (len + a) 0 else min a len
  let e : Int := if b < 0 then max (len + b) 0 else min b len
  if e ≤ s then [] else (l.take e.toNat).drop s.toNat

/-- Node Buffer.readUInt16BE(off). -/
def readUInt16BE (l : List Nat) (off : Nat) : Nat :=
  l.getD off 0 * 256 + l.getD (off + 1) 0

/-- Node Buffer.readInt32BE(off): big-endian, signed two's complement. -/
def readInt32BE (l : List Nat) (off : Nat) : Int :=
  let u : Nat :=
    ((l.getD off 0 * 256 + l.getD (off + 1) 0) * 256 + l.getD (off + 2) 0) * 256
      + l.getD (off + 3) 0
  if u < 2 ^ 31 then (u : Int) else (u : Int) - 2 ^ 32

/-- Big-endian value of a byte list. -/
def beValue (l : List Nat) : Nat :=
  l.foldl (fun acc b => acc * 256 + b) 0

/-- The four big-endian bytes of a 32-bit value. -/
def beBytes4 (n : Nat) : List Nat :=
  [n / 2 ^ 24 % 256, n / 2 ^ 16 % 256, n / 2 ^ 8 % 256, n % 256]

/-- Node Buffer.compare: lexicographic byte order, shorter prefix first;
returns -1, 0 or 1. -/
def bufferCompare : List Nat → List Nat → Int
  | [], [] => 0
  | [], _ :: _ => -1
  | _ :: _, [] => 1
  | x :: xs, y :: ys =>
    if x < y then -1 else if y < x then 1 else bufferCompare xs ys

/-- Bytes of a JS string (the source only ever writes ASCII messages, for
which UTF-8 bytes coincide with code points). -/
def strBytes (s : String) : List Nat :=
  s.data.map Char.toNat

/-! ### JS Map registries

A JS Map keeps one entry per key in insertion order; set on a present
key overwrites in place, set on an absent key appends; size is the
number of entries. -/

/-- Association-list model of a JS Map with String keys. -/
abbrev RegMap (α : Type) := List (String × α)

/-- JS Map.has. -/
def mapHas {α : Type} (m : RegMap α) (k : String) : Bool :=
  m.any (fun e => e.1 == k)

/-- JS Map.set: overwrite the entry in place when the key is present,
append otherwise. -/
def mapSet {α : Type} (m : RegMap α) (k : String) (v : α) : RegMap α :=
  if mapHas m k then m.map (fun e => if e.1 == k then (k, v) else e)
  else m ++ [(k, v)]

/-- JS Map.size. -/
def mapSize {α : Type} (m : RegMap α) : Nat :=
  m.length

/-- JS Map.get as an Option. -/
def lookupReg {α : Type} (m : RegMap α) (k : String) : Option α :=
  (m.find? (fun e => e.1 == k)).map Prod.snd

/-- The keys of a registry, in insertion order. -/
def regKeys {α : Type} (m : RegMap α) : List String :=
  m.map Prod.fst

/-! ### CRC-32 (the buffer-crc32 dependency)

Standard reflected CRC-32 with polynomial 0xEDB88320, initial value and
final xor 0xFFFFFFFF; this is what the buffer-crc32 package computes. -/

/-- One bit step of the reflected CRC-32. -/
def crc32Round (c : Nat) : Nat :=
  if c % 2 = 1 then Nat.xor (c / 2) 0xEDB88320 else c / 2

/-- Absorb one input byte into the running CRC. -/
def crc32Byte (c b : Nat) : Nat :=
  let c0 := Nat.xor c b
  crc32Round (crc32Round (crc32Round (crc32Round
    (crc32Round (crc32Round (crc32Round (crc32Round c0)))))))

/-- CRC-32 of a byte list, as a value below 2 ^ 32. -/
def crc32 (data : List Nat) : Nat :=
  Nat.xor (data.foldl crc32Byte 0xFFFFFFFF) 0xFFFFFFFF

/-- The 4-byte big-endian Buffer that buffer-crc32 returns. -/
def crc32Bytes (data : List Nat) : List Nat :=
  beBytes4 (crc32 data)

/-! ### Message-id counter -/

/-- Source nextMessageID: increment, wrap at COUNTER_MAX = 65536 to 0,
return the new value. -/
def nextMessageID (messageID : Nat) : Nat :=
  if messageID + 1 ≥ 65536 then 0 else messageID + 1

/-! ### TCP handshake, set-session-key step (onReadData) -/

/-- Session state derived from the 40-byte session material. -/
structure SessionCrypto where
  key : List Nat
  iv : List Nat
  messageID : Nat
deriving DecidableEq

/-- Source onReadData, state set-session-key, after the RSA decryptions:
sessionKey is the 40-byte decrypted session material, hash is the
HMAC-SHA1 of the 128-byte ciphertext keyed with sessionKey as computed
by CryptoManager.createHmacDigest, decryptedHMAC is the blob decrypted
with the server public key.  The source throws when
hash.compare(decryptedHMAC) === -1 and otherwise derives the AES key,
the IV and the initial message-id counter. -/
def setSessionKeyStep (sessionKey hash decryptedHMAC : List Nat) :
    Except String SessionCrypto :=
  if bufferCompare hash decryptedHMAC = -1 then
    Except.error "HMAC did not match"
  else
    Except.ok
      { key := jsSlice sessionKey 0 16
        iv := jsSlice sessionKey 16 32
        messageID :=
          Nat.lor (Nat.shiftLeft (sessionKey.getD 32 0) 8) (sessionKey.getD 33 0) }

/-! ### Bounded registries (post, get, file, subscribe)

Each registration method checks the name length against
EVENT_NAME_MAX_LENGTH = 64, then the map size against its capacity
(FUNCTIONS_MAX_NUMBER = 10, VARIABLES_MAX_NUMBER = 10,
FILES_MAX_NUMBER = 4, SUBSCRIPTIONS_MAX_NUMBER = 4), and only then
stores the entry.  User callbacks are not representable in the
embedding; each stored pair keeps its data component. -/

/-- Source post: register a function.  The stored value is the flags
string (functionFlags or the empty string); the callback component of
the stored pair is abstracted away. -/
def post (m : RegMap String) (name : String) (functionFlags : Option String) :
    Bool × RegMap String :=
  if name.length > 64 then (false, m)
  else if mapSize m ≥ 10 then (false, m)
  else (true, mapSet m name (functionFlags.getD ""))

/-- Source get: register a variable.  The stored value is the declared
type string. -/
def get (m : RegMap String) (name : String) (type : String) :
    Bool × RegMap String :=
  if name.length > 64 then (false, m)
  else if mapSize m ≥ 10 then (false, m)
  else (true, mapSet m name type)

/-- Source file: register a named file.  The stored value is the mime
type string. -/
def file (m : RegMap String) (fileName : String) (mimeType : String) :
    Bool × RegMap String :=
  if fileName.length > 64 then (false, m)
  else if mapSize m ≥ 4 then (false, m)
  else (true, mapSet m fileName mimeType)

/-- Subscription scope stored by subscribe. -/
inductive SubscriptionType where
  | ALL_DEVICES : SubscriptionType
  | MY_DEVICES : SubscriptionType
deriving DecidableEq

/-- Source subscribe: register a subscription.  The stored value is the
scope (defaulting to ALL_DEVICES unless MY_DEVICES was passed); the
handler closure built from the callback is abstracted away. -/
def subscribe (m : RegMap SubscriptionType) (eventName : String)
    (subscriptionType : Option SubscriptionType) :
    Bool × RegMap SubscriptionType :=
  if eventName.length > 64 then (false, m)
  else if mapSize m ≥ 4 then (false, m)
  else
    let type :=
      match subscriptionType with
      | some SubscriptionType.MY_DEVICES => SubscriptionType.MY_DEVICES
      | _ => SubscriptionType.ALL_DEVICES
    (true, mapSet m eventName type)

/-- The subscription-related part of finalizeHandshake: first
subscribe(iotready, handleSystemEvent) through the public capacity
checked path, then the replay loop walks subscriptionsMap.entries() and
calls sendSubscribe on each entry, which attaches the entry handler as
a live event listener.  The second component lists the event names whose
handlers get attached (and are sent to the cloud). -/
def finalizeHandshakeSubs (subs : RegMap SubscriptionType) :
    RegMap SubscriptionType × List String :=
  let r := subscribe subs "iotready" none
  (r.2, regKeys r.2)

/-- The state touched by unsubscribe: the connection flag, the
subscription registry and the names with live event listeners. -/
structure SessionSubs where
  isConnected : Bool
  subscriptionsMap : RegMap SubscriptionType
  listeners : List String
deriving DecidableEq

/-- Source unsubscribe: return immediately when not connected; otherwise
look the name up in subscriptionsMap and removeListener its stored
handler.  When the name is not registered the lookup yields undefined
and reading its first component throws a TypeError before anything is
mutated; the Bool records that escape.  The registry itself is never
touched. -/
def unsubscribe (s : SessionSubs) (eventName : String) : SessionSubs × Bool :=
  if !s.isConnected then (s, false)
  else
    match lookupReg s.subscriptionsMap eventName with
    | none => (s, true)
    | some _ => ({ s with listeners := s.listeners.erase eventName }, false)

/-! ### listenFor -/

/-- The fields of an inbound CoAP packet that the listenFor filters
read.  The response code X.YY is kept as its class X and detail YY;
for well-formed codes (detail < 100) the source test
parseFloat(packet.code) >= 4 is exactly codeClass >= 4. -/
structure LFPacket where
  token : List Nat
  messageId : Nat
  codeClass : Nat
  codeDetail : Nat
deriving DecidableEq

/-- Outcome of a waiter once the timeout window has elapsed. -/
inductive WaiterOutcome where
  | resolved : LFPacket → WaiterOutcome
  | rejected : WaiterOutcome
  | pending : WaiterOutcome
deriving DecidableEq

/-- The token filter of the listenFor handler: tokenHex is null when no
token was passed (and when the token is 0, by JS truthiness), otherwise
the hex of the one-byte Buffer.from([token]); hex strings of Buffers
compare equal exactly when the byte lists do. -/
def lfTokenBlocks : Option Nat → List Nat → Bool
  | some t, ptoken => if t = 0 then false else !(ptoken == [t % 256])
  | none, _ => false

/-- The message-id filter of the listenFor handler: skipped when no
message id was passed (and when it is 0, by JS truthiness); otherwise
the packet is dropped unless the ids match and the response code is
below 4.00. -/
def lfMsgIdBlocks : Option Nat → LFPacket → Bool
  | some m, p => if m = 0 then false else decide (m ≠ p.messageId) || decide (4 ≤ p.codeClass)
  | none, _ => false

/-- A packet passes both listenFor filters. -/
def lfMatches (token messageId : Option Nat) (p : LFPacket) : Bool :=
  !lfTokenBlocks token p.token && !lfMsgIdBlocks messageId p

/-- Source listenFor handler loop over the packets of the listened event
kind arriving inside the timeout window, in order.  Every arrival first
runs clearTimeout; a packet failing a filter returns with the handler
still installed; a passing packet resolves.  When the list is exhausted
the armed timeout rejects only if it was never cleared. -/
def listenForRun (token messageId : Option Nat) :
    List LFPacket → Bool → WaiterOutcome
  | [], timerCleared => if timerCleared then .pending else .rejected
  | p :: rest, _ =>
    if lfMatches token messageId p then .resolved p
    else listenForRun token messageId rest true

/-- Outcome of listenFor given the packets of its event kind that arrive
within the timeout window. -/
def listenForOutcome (token messageId : Option Nat) (packets : List LFPacket) :
    WaiterOutcome :=
  listenForRun token messageId packets false

/-- Source timeout choice: timeoutMs || this.keepalive * 2. -/
def listenForTimeout (timeoutMs : Option Nat) (keepalive : Nat) : Nat :=
  match timeoutMs with
  | some t => if t = 0 then keepalive * 2 else t
  | none => keepalive * 2

/-! ### writeCoapData retransmission (confirmable packets) -/

/-- The state relevant to the retransmission of one confirmable packet
with a fixed message id: its sentPacketCounterMap entry, the connection
and socket state, the armed COMPLETE-waiter timeout, the log of message
ids actually written to the cipher stream, and the number of reconnect
calls. -/
structure RetxState where
  counter : Option Nat
  isConnected : Bool
  socketPresent : Bool
  armedTimeout : Option Nat
  sentLog : List Nat
  reconnects : Nat
deriving DecidableEq

/-- Source writeCoapData on a confirmable packet with message id msgId:
bump the per-message attempt counter; while it is at most 3, store it
and arm listenFor(COMPLETE, msgId) with timeout 4000 * 2 ^ (counter - 1),
whose catch resends the same packet while still connected; past 3,
trigger reconnect (which tears the socket down).  In both cases the
packet buffer is then handed to writeData, which writes it only while
the socket exists. -/
def writeCoapConfirmable (msgId : Nat) (s : RetxState) : RetxState :=
  let c := match s.counter with
    | none => 1
    | some n => n + 1
  let s1 :=
    if c ≤ 3 then
      { s with counter := some c, armedTimeout := some (4000 * 2 ^ (c - 1)) }
    else
      { s with armedTimeout := none, reconnects := s.reconnects + 1,
               isConnected := false, socketPresent := false }
  if s1.socketPresent then { s1 with sentLog := s1.sentLog ++ [msgId] } else s1

/-- A COMPLETE-waiter timeout firing: the catch handler resends the same
packet only while still connected. -/
def onCompleteTimeout (msgId : Nat) (s : RetxState) : RetxState :=
  if s.isConnected then writeCoapConfirmable msgId s else s

/-- Fresh state right after connect: empty sentPacketCounterMap,
connected socket. -/
def retxInit : RetxState :=
  { counter := none, isConnected := true, socketPresent := true,
    armedTimeout := none, sentLog := [], reconnects := 0 }

/-- The run in which no COMPLETE ever arrives: the first write followed
by n waiter expirations. -/
def retxRun (msgId : Nat) : Nat → RetxState
  | 0 => writeCoapConfirmable msgId retxInit
  | n + 1 => onCompleteTimeout msgId (retxRun msgId n)

/-! ### receiveFile (inbound UpdateBegin) -/

/-- The fields of the CoAP packets receiveFile writes back. -/
structure CoapReplyPacket where
  ack : Bool
  code : String
  confirmable : Bool
  messageId : Nat
  payload : List Nat
  tokenEcho : Bool
deriving DecidableEq

/-- The observable effect of one receiveFile call. -/
structure ReceiveFileOut where
  reply : CoapReplyPacket
  errorEmitted : Bool
  bufferAllocated : Option Int
  chunkListenerInstalled : Bool
  updateDoneListenerInstalled : Bool
  messageIDAfter : Nat
deriving DecidableEq

/-- Source receiveFile on an inbound UpdateBegin packet.  The payload is
parsed (chunk size at offset 1 with default CHUNK_SIZE = 256, signed
file size at offset 3); a 12-byte payload with both update flags false
is refused with a 5.03 ack carrying the current message id; otherwise a
12-byte payload or a registered filename allocates the file buffer,
installs the Chunk and UpdateDone listeners and answers 2.04 with the
update-ready URI byte; anything else is aborted with code 4 and payload
"26".  filesHasFileName stands for this.filesMap.has(fileName) with the
filename decoded from payload bytes 13 onward. -/
def receiveFile (payload : List Nat) (otaUpdateEnabled otaUpdateForced : Bool)
    (filesHasFileName : Bool) (messageID : Nat) : ReceiveFileOut :=
  let chunksSizeRead := readUInt16BE payload 1
  let _chunksSize := if chunksSizeRead = 0 then 256 else chunksSizeRead
  let fileSize := readInt32BE payload 3
  if payload.length = 12 && !otaUpdateEnabled && !otaUpdateForced then
    { reply := { ack := true, code := "5.03", confirmable := false,
                 messageId := messageID, payload := [], tokenEcho := true }
      errorEmitted := true
      bufferAllocated := none
      chunkListenerInstalled := false
      updateDoneListenerInstalled := false
      messageIDAfter := messageID }
  else if payload.length = 12 || filesHasFileName then
    { reply := { ack := false, code := "2.04", confirmable := false,
                 messageId := nextMessageID messageID,
                 payload := strBytes "u", tokenEcho := true }
      errorEmitted := false
      bufferAllocated := some fileSize
      chunkListenerInstalled := true
      updateDoneListenerInstalled := true
      messageIDAfter := nextMessageID messageID }
  else
    { reply := { ack := false, code := "4", confirmable := false,
                 messageId := nextMessageID messageID,
                 payload := strBytes "26", tokenEcho := true }
      errorEmitted := true
      bufferAllocated := none
      chunkListenerInstalled := false
      updateDoneListenerInstalled := false
      messageIDAfter := nextMessageID messageID }

/-! ### validateFirmwareFile -/

/-- Source validateFirmwareFile: split off the last 4 bytes, compare the
CRC-32 of the rest against them (the source compares the hex strings of
the two 4-byte Buffers, which agree exactly when the byte lists do), and
on success return slice(24, length - 44).  All three slices use Node
Buffer.slice semantics; in particular the success slice has a negative
end index for buffers shorter than 44 bytes, which Node resolves
relative to the buffer end. -/
def validateFirmwareFile (fileContentBuffer : List Nat) :
    Except String (List Nat) :=
  let len : Int := fileContentBuffer.length
  let woCrc := jsSliceNode fileContentBuffer 0 (len - 4)
  let crcTail := jsSliceNode fileContentBuffer (len - 4) len
  if crc32Bytes woCrc ≠ crcTail then
    Except.error "Firmware validation failed: crc not valid"
  else
    Except.ok (jsSliceNode fileContentBuffer 24 (len - 44))

/-! ### sendFunctionResult -/

/-- Modelled from the spec: CoapMessages.toBinary(value, int32) from
lib/CoapMessages is not under src; per the spec the function result is
encoded as a 4-byte big-endian signed 32-bit integer. -/
def toBinaryInt32 (v : Int) : List Nat :=
  beBytes4 (v % (2 : Int) ^ 32).toNat

/-- The inbound request fields sendFunctionResult reads. -/
structure ServerPacket where
  messageId : Nat
  token : List Nat
deriving DecidableEq

/-- The fields of the packets sendFunctionResult writes. -/
structure FnReply where
  ack : Bool
  code : String
  messageId : Nat
  payload : List Nat
  token : List Nat
deriving DecidableEq

/-- Source writeError: an ack with the given response code, the message
id of the server packet, the message as payload and no token. -/
def writeErrorPacket (serverPacket : ServerPacket) (message : List Nat)
    (responseCode : String) : FnReply :=
  { ack := true, code := responseCode, messageId := serverPacket.messageId,
    payload := message, token := [] }

/-- Source sendFunctionResult.  The user callback outcome is the
callResult argument: ok with the returned integer, or error with the
message and optional err.status.  On success the reply is a 2.04 with a
fresh message id, the request token and the int32 encoding of the
return value; the message-id rollback of the catch branch only concerns
a throw after a successful callback (a writeCoapData failure), which
the embedding does not model. -/
def sendFunctionResult (isConnected : Bool) (functionsMap : RegMap String)
    (owners : Option (List String)) (functionName args caller : String)
    (serverPacket : ServerPacket) (callResult : Except (String × Option String) Int)
    (messageID : Nat) : Option FnReply × Nat :=
  if !isConnected then (none, messageID)
  else if args.length > 622 then
    (some (writeErrorPacket serverPacket (strBytes "Args max length is 622 bytes") "4.00"),
     messageID)
  else
    match lookupReg functionsMap functionName with
    | some functionFlags =>
      if functionFlags == "OWNER_ONLY"
          && (match owners with
              | none => true
              | some os => !(os.contains caller)) then
        (some (writeErrorPacket serverPacket
                (strBytes "Forbidden: only owners can call this function") "4.03"),
         messageID)
      else
        match callResult with
        | Except.ok returnValue =>
          let m := nextMessageID messageID
          (some { ack := false, code := "2.04", messageId := m,
                  payload := toBinaryInt32 returnValue,
                  token := serverPacket.token }, m)
        | Except.error e =>
          (some (writeErrorPacket serverPacket (strBytes e.1) (e.2.getD "5.00")),
           messageID)
    | none =>
      (some (writeErrorPacket serverPacket
              (strBytes ("Function " ++ functionName ++ " not found")) "4.04"),
       messageID)

/-- The common shape of the four registration methods: name-length guard,
capacity guard, then Map.set.  Each of post, get, file and subscribe is
definitionally an instance of this shape. -/
def registerAux {α : Type} (cap : Nat) (m : RegMap α) (k : String) (v : α) :
    Bool × RegMap α :=
  if k.length > 64 then (false, m)
  else if mapSize m ≥ cap then (false, m)
  else (true, mapSet m k v)

/-! ## Helper lemmas -/

theorem mapHas_iff_mem_regKeys {α : Type} (m : RegMap α) (k : String) :
    mapHas m k = true ↔ k ∈ regKeys m := by
  simp [mapHas, regKeys, List.any_eq_true, List.mem_map, beq_iff_eq]

theorem length_mapSet {α : Type} (m : RegMap α) (k : String) (v : α) :
    (mapSet m k v).length = if mapHas m k then m.length else m.length + 1 := by
  by_cases h : mapHas m k = true <;> simp [mapSet, h]

theorem find?_overwrite {α : Type} (k : String) (v : α) :
    ∀ m : RegMap α, mapHas m k = true →
      (m.map (fun e => if e.1 == k then (k, v) else e)).find?
          (fun e => e.1 == k) = some (k, v)
  | [], h => by simp [mapHas] at h
  | e :: m, h => by
    cases he : (e.1 == k) with
    | true => simp [List.find?, he]
    | false =>
      have h2 : mapHas m k = true := by
        simpa [mapHas, List.any_cons, he] using h
      have ih := find?_overwrite k v m h2
      rw [List.map_cons, if_neg (by simp [he]), List.find?_cons_of_neg _ (by simp [he])]
      exact ih

theorem lookupReg_mapSet_self {α : Type} (m : RegMap α) (k : String) (v : α) :
    lookupReg (mapSet m k v) k = some v := by
  unfold lookupReg mapSet
  by_cases h : mapHas m k = true
  · rw [if_pos h, find?_overwrite k v m h]
    rfl
  · rw [if_neg h]
    have hnone : m.find? (fun e => e.1 == k) = none := by
      rw [List.find?_eq_none]
      intro e he hpe
      exact h (List.any_eq_true.mpr ⟨e, he, hpe⟩)
    rw [List.find?_append, hnone]
    simp [List.find?]

theorem mapHas_of_lookupReg {α : Type} {m : RegMap α} {k : String} {v : α}
    (h : lookupReg m k = some v) : mapHas m k = true := by
  unfold lookupReg at h
  cases hf : m.find? (fun e => e.1 == k) with
  | none => rw [hf] at h; simp at h
  | some e =>
    have hp : (e.1 == k) = true :=
      List.find?_some (p := fun x : String × α => x.1 == k) hf
    have hm : e ∈ m := List.mem_of_find?_eq_some hf
    exact List.any_eq_true.mpr ⟨e, hm, hp⟩

theorem mapHas_mapSet_self {α : Type} (m : RegMap α) (k : String) (v : α) :
    mapHas (mapSet m k v) k = true :=
  mapHas_of_lookupReg (lookupReg_mapSet_self m k v)

theorem regKeys_mapSet_of_has {α : Type} {m : RegMap α} {k : String} (v : α)
    (h : mapHas m k = true) : regKeys (mapSet m k v) = regKeys m := by
  unfold regKeys mapSet
  rw [if_pos h, List.map_map]
  apply List.map_congr_left
  intro e _
  by_cases hek : e.1 == k
  · simp only [Function.comp, if_pos hek]
    exact (eq_of_beq hek).symm
  · simp only [Function.comp, if_neg hek]

theorem mem_regKeys_mapSet {α : Type} {m : RegMap α} {k : String} (k2 : String)
    (v : α) (h : k ∈ regKeys m) : k ∈ regKeys (mapSet m k2 v) := by
  by_cases h2 : mapHas m k2 = true
  · rwa [regKeys_mapSet_of_has v h2]
  · unfold mapSet
    rw [if_neg h2]
    unfold regKeys
    rw [List.map_append]
    exact List.mem_append_left _ h

theorem registerAux_spec {α : Type} (cap : Nat) (m : RegMap α) (k : String)
    (v : α) :
    ((registerAux cap m k v).1 = false → (registerAux cap m k v).2 = m) ∧
    (mapSize m ≤ cap → mapSize (registerAux cap m k v).2 ≤ cap) ∧
    (mapHas m k = true → mapSize (registerAux cap m k v).2 = mapSize m) ∧
    (cap ≤ mapSize m → (registerAux cap m k v).1 = false) ∧
    (k.length ≤ 64 → mapSize m < cap →
       (registerAux cap m k v).1 = true ∧
       lookupReg (registerAux cap m k v).2 k = some v) := by
  unfold registerAux
  by_cases h1 : k.length > 64
  · simp only [if_pos h1]
    exact ⟨fun _ => trivial, fun h => h, fun _ => trivial, fun _ => trivial,
           fun hle _ => absurd h1 (by omega)⟩
  · by_cases h2 : mapSize m ≥ cap
    · simp only [if_neg h1, if_pos h2]
      exact ⟨fun _ => trivial, fun h => h, fun _ => trivial, fun _ => trivial,
             fun _ hlt => absurd h2 (by omega)⟩
    · simp only [if_neg h1, if_neg h2]
      have hlen : m.length < cap := by
        unfold mapSize at h2
        omega
      refine ⟨fun h => by simp at h, ?_, ?_, fun hge => absurd hge h2,
              fun _ _ => ⟨trivial, lookupReg_mapSet_self m k v⟩⟩
      · intro _
        show (mapSet m k v).length ≤ cap
        rw [length_mapSet]
        split <;> omega
      · intro hh
        show (mapSet m k v).length = m.length
        rw [length_mapSet, if_pos hh]

/-! ## Claim C1 -/

/-- C1: the claim says that whenever the computed HMAC-SHA1 differs from
the decrypted blob in any byte the handshake fails with an HMAC-mismatch
error.  The source only throws when Buffer.compare returns -1, so a
computed HMAC that differs from the blob but sorts lexicographically
after it is accepted: here the computed digest 0x01 00 ... 00 differs
from the all-zero decrypted blob, yet setSessionKeyStep succeeds and
installs session keys. -/
theorem C1_hmac_mismatch_accepted :
    (1 :: List.replicate 19 0) ≠ List.replicate 20 0 ∧
    bufferCompare (1 :: List.replicate 19 0) (List.replicate 20 0) = 1 ∧
    (setSessionKeyStep (List.replicate 40 2) (1 :: List.replicate 19 0)
        (List.replicate 20 0)).toOption =
      some { key := List.replicate 16 2, iv := List.replicate 16 2,
             messageID := 514 } := by
  decide

/-! ## Claim C2 -/

/-- The state after the third COMPLETE-waiter expiry: the fourth
writeCoapData call finds the attempt counter past 3, triggers reconnect
(tearing the socket down) and therefore writes nothing. -/
theorem retxRun_three (msgId : Nat) :
    retxRun msgId 3 =
      { counter := some 3, isConnected := false, socketPresent := false,
        armedTimeout := none, sentLog := [msgId, msgId, msgId],
        reconnects := 1 } := rfl

/-- Once the reconnect has fired, further waiter expirations change
nothing: the catch handler only resends while connected. -/
theorem retxRun_stable (msgId : Nat) :
    ∀ k, retxRun msgId (3 + k) = retxRun msgId 3
  | 0 => rfl
  | k + 1 => by
    have ih := retxRun_stable msgId k
    show onCompleteTimeout msgId (retxRun msgId (3 + k)) = _
    rw [ih, retxRun_three]
    rfl

/-- C2: for an outbound confirmable packet, attempt n (n = 1, 2, 3) arms
a COMPLETE waiter with timeout 4000 * 2 ^ (n - 1) ms; a timeout while
connected resends the identical packet (same message id) as attempt
n + 1; when the third waiter expires, exactly one reconnect fires and no
fourth transmission occurs. -/
theorem C2_confirmable_retransmission (msgId : Nat) :
    ((retxRun msgId 0).armedTimeout = some (4000 * 2 ^ 0) ∧
       (retxRun msgId 0).sentLog = List.replicate 1 msgId ∧
       (retxRun msgId 0).reconnects = 0) ∧
    ((retxRun msgId 1).armedTimeout = some (4000 * 2 ^ 1) ∧
       (retxRun msgId 1).sentLog = List.replicate 2 msgId ∧
       (retxRun msgId 1).reconnects = 0) ∧
    ((retxRun msgId 2).armedTimeout = some (4000 * 2 ^ 2) ∧
       (retxRun msgId 2).sentLog = List.replicate 3 msgId ∧
       (retxRun msgId 2).reconnects = 0) ∧
    (∀ k, (retxRun msgId (3 + k)).reconnects = 1 ∧
       (retxRun msgId (3 + k)).sentLog = List.replicate 3 msgId ∧
       (retxRun msgId (3 + k)).isConnected = false) := by
  refine ⟨⟨rfl, rfl, rfl⟩, ⟨rfl, rfl, rfl⟩, ⟨rfl, rfl, rfl⟩, fun k => ?_⟩
  rw [retxRun_stable msgId k, retxRun_three]
  exact ⟨rfl, rfl, rfl⟩

/-! ## Claim C3 -/

/-- C3 counterexample: the claim says re-registration of a present name
succeeds even when the registry is at capacity.  In the source the size
guard runs before the presence check, so with functionsMap at its
capacity of 10 and f0 already registered, post returns false and leaves
the registry unchanged instead of overwriting. -/
theorem C3_full_reregistration_fails :
    mapSize [("f0", "x"), ("f1", "x"), ("f2", "x"), ("f3", "x"), ("f4", "x"),
             ("f5", "x"), ("f6", "x"), ("f7", "x"), ("f8", "x"), ("f9", "x")] = 10 ∧
    mapHas [("f0", "x"), ("f1", "x"), ("f2", "x"), ("f3", "x"), ("f4", "x"),
            ("f5", "x"), ("f6", "x"), ("f7", "x"), ("f8", "x"), ("f9", "x")] "f0" = true ∧
    (post [("f0", "x"), ("f1", "x"), ("f2", "x"), ("f3", "x"), ("f4", "x"),
           ("f5", "x"), ("f6", "x"), ("f7", "x"), ("f8", "x"), ("f9", "x")] "f0" none).1
      = false ∧
    (post [("f0", "x"), ("f1", "x"), ("f2", "x"), ("f3", "x"), ("f4", "x"),
           ("f5", "x"), ("f6", "x"), ("f7", "x"), ("f8", "x"), ("f9", "x")] "f0" none).2
      = [("f0", "x"), ("f1", "x"), ("f2", "x"), ("f3", "x"), ("f4", "x"),
         ("f5", "x"), ("f6", "x"), ("f7", "x"), ("f8", "x"), ("f9", "x")] := by
  decide

/-- C3 amended: every registry (functions 10, variables 10, files 4,
subscriptions 4) never exceeds its capacity; a registration that returns
false leaves the registry unchanged; a registration that names a present
key never grows the registry; at capacity every registration, including
re-registration of a present name, returns false; and below capacity a
re-registration succeeds and overwrites the stored value. -/
theorem C3_registry_invariants :
    (∀ (m : RegMap String) (name : String) (fl : Option String),
       ((post m name fl).1 = false → (post m name fl).2 = m) ∧
       (mapSize m ≤ 10 → mapSize (post m name fl).2 ≤ 10) ∧
       (mapHas m name = true → mapSize (post m name fl).2 = mapSize m) ∧
       (10 ≤ mapSize m → (post m name fl).1 = false) ∧
       (name.length ≤ 64 → mapSize m < 10 →
          (post m name fl).1 = true ∧
          lookupReg (post m name fl).2 name = some (fl.getD ""))) ∧
    (∀ (m : RegMap String) (name type : String),
       ((get m name type).1 = false → (get m name type).2 = m) ∧
       (mapSize m ≤ 10 → mapSize (get m name type).2 ≤ 10) ∧
       (mapHas m name = true → mapSize (get m name type).2 = mapSize m) ∧
       (10 ≤ mapSize m → (get m name type).1 = false) ∧
       (name.length ≤ 64 → mapSize m < 10 →
          (get m name type).1 = true ∧
          lookupReg (get m name type).2 name = some type)) ∧
    (∀ (m : RegMap String) (fileName mimeType : String),
       ((file m fileName mimeType).1 = false → (file m fileName mimeType).2 = m) ∧
       (mapSize m ≤ 4 → mapSize (file m fileName mimeType).2 ≤ 4) ∧
       (mapHas m fileName = true →
          mapSize (file m fileName mimeType).2 = mapSize m) ∧
       (4 ≤ mapSize m → (file m fileName mimeType).1 = false) ∧
       (fileName.length ≤ 64 → mapSize m < 4 →
          (file m fileName mimeType).1 = true ∧
          lookupReg (file m fileName mimeType).2 fileName = some mimeType)) ∧
    (∀ (m : RegMap SubscriptionType) (eventName : String)
        (st : Option SubscriptionType),
       ((subscribe m eventName st).1 = false → (subscribe m eventName st).2 = m) ∧
       (mapSize m ≤ 4 → mapSize (subscribe m eventName st).2 ≤ 4) ∧
       (mapHas m eventName = true →
          mapSize (subscribe m eventName st).2 = mapSize m) ∧
       (4 ≤ mapSize m → (subscribe m eventName st).1 = false) ∧
       (eventName.length ≤ 64 → mapSize m < 4 →
          (subscribe m eventName st).1 = true ∧
          lookupReg (subscribe m eventName st).2 eventName =
            some (match st with
                  | some SubscriptionType.MY_DEVICES => SubscriptionType.MY_DEVICES
                  | _ => SubscriptionType.ALL_DEVICES))) :=
  ⟨fun m name fl => registerAux_spec 10 m name (fl.getD ""),
   fun m name type => registerAux_spec 10 m name type,
   fun m fileName mimeType => registerAux_spec 4 m fileName mimeType,
   fun m eventName _st => registerAux_spec 4 m eventName _⟩

/-- C3 witness: the amended theorem applied to concrete registries: a
re-registration on a full 10-entry functionsMap is refused, while a
re-registration on a 1-entry functionsMap succeeds and overwrites the
stored flags. -/
theorem C3_registry_invariants_witness :
    (post [("f0", "x"), ("f1", "x"), ("f2", "x"), ("f3", "x"), ("f4", "x"),
           ("f5", "x"), ("f6", "x"), ("f7", "x"), ("f8", "x"), ("f9", "x")]
        "f0" none).1 = false ∧
    (post [("a", "x")] "a" (some "OWNER_ONLY")).1 = true ∧
    lookupReg (post [("a", "x")] "a" (some "OWNER_ONLY")).2 "a" =
      some "OWNER_ONLY" := by
  have h1 :=
    (C3_registry_invariants.1
      [("f0", "x"), ("f1", "x"), ("f2", "x"), ("f3", "x"), ("f4", "x"),
       ("f5", "x"), ("f6", "x"), ("f7", "x"), ("f8", "x"), ("f9", "x")]
      "f0" none).2.2.2.1 (by decide)
  have h2 :=
    (C3_registry_invariants.1 [("a", "x")] "a" (some "OWNER_ONLY")).2.2.2.2
      (by decide) (by decide)
  exact ⟨h1, h2.1, h2.2⟩

/-! ## Claim C4 -/

/-- Once a first packet of the event kind has arrived (clearing the
timeout), the waiter resolves with the first matching packet and
otherwise stays pending forever. -/
theorem listenForRun_cleared (token messageId : Option Nat) :
    ∀ packets : List LFPacket,
      listenForRun token messageId packets true =
        match packets.find? (lfMatches token messageId) with
        | some p => WaiterOutcome.resolved p
        | none => WaiterOutcome.pending
  | [] => rfl
  | p :: rest => by
    cases h : lfMatches token messageId p with
    | true =>
      rw [List.find?_cons_of_pos _ h]
      simp [listenForRun, h]
    | false =>
      rw [List.find?_cons_of_neg _ (by simp [h])]
      have ih := listenForRun_cleared token messageId rest
      simp only [listenForRun, h]
      exact ih

/-- C4 counterexample: the claim says the waiter rejects after the
timeout even when non-matching packets arrived in the meantime.  The
source handler calls clearTimeout before checking the filters, so a
single non-matching packet (message id 6 instead of 5) kills the timer:
no matching packet ever arrives, yet the waiter stays pending instead of
rejecting. -/
theorem C4_nonmatching_packet_disables_timeout :
    lfMatches none (some 5)
      { token := [], messageId := 6, codeClass := 2, codeDetail := 4 } = false ∧
    listenForOutcome none (some 5)
      [{ token := [], messageId := 6, codeClass := 2, codeDetail := 4 }] =
      WaiterOutcome.pending := by
  decide

/-- C4 amended: listenFor resolves with the first packet of its event
kind that passes all supplied filters (token hex equality when a nonzero
token is supplied; message-id equality plus response code below 4.00
when a nonzero message id is supplied); packets failing a filter leave
the waiter pending; if no packet of the event kind at all arrives within
the timeout (default keepalive times 2 when absent) the waiter rejects;
but the first arriving packet, matching or not, clears the timeout, so
after a non-matching packet the waiter never rejects and stays pending. -/
theorem C4_listenFor_characterisation :
    (∀ (token messageId : Option Nat) (packets : List LFPacket),
       listenForOutcome token messageId packets =
         match packets.find? (lfMatches token messageId) with
         | some p => WaiterOutcome.resolved p
         | none =>
           if packets.isEmpty then WaiterOutcome.rejected
           else WaiterOutcome.pending) ∧
    (∀ keepalive : Nat, listenForTimeout none keepalive = keepalive * 2) := by
  refine ⟨fun token messageId packets => ?_, fun _ => rfl⟩
  cases packets with
  | nil => rfl
  | cons p rest =>
    cases h : lfMatches token messageId p with
    | true =>
      rw [List.find?_cons_of_pos _ h]
      simp [listenForOutcome, listenForRun, h]
    | false =>
      rw [List.find?_cons_of_neg _ (by simp [h])]
      have hrun := listenForRun_cleared token messageId rest
      simp only [listenForOutcome, listenForRun, h, List.isEmpty_cons]
      exact hrun

/-! ## Claim C5 -/

/-- Bytes read out of a byte list via getD stay below 256. -/
theorem getD_lt_256 {l : List Nat} (hb : ∀ x ∈ l, x < 256) {i : Nat}
    (hi : i < l.length) : l.getD i 0 < 256 := by
  rw [List.getD_eq_getElem l 0 hi]
  exact hb _ (List.getElem_mem hi)

/-- The JS expression (hi << 8) | lo equals the big-endian 16-bit value
256 * hi + lo whenever lo is a byte. -/
theorem lor_shiftLeft_byte (a b : Nat) (hb : b < 256) :
    Nat.lor (Nat.shiftLeft a 8) b = 256 * a + b := by
  have h2 := Nat.mul_add_lt_is_or (show b < 2 ^ 8 from hb) a
  show a <<< 8 ||| b = 256 * a + b
  rw [Nat.shiftLeft_eq, Nat.mul_comm a (2 ^ 8), ← h2]

/-- C5: the AES key is bytes 0..15 of the 40-byte session material, the
IV is bytes 16..31, and the message-id counter is initialised to the
big-endian 16-bit value of bytes 32..33. -/
theorem C5_session_material_derivation (sk h b : List Nat)
    (hlen : sk.length = 40) (hbytes : ∀ x ∈ sk, x < 256)
    (hcheck : bufferCompare h b ≠ -1) :
    setSessionKeyStep sk h b =
      Except.ok { key := sk.take 16, iv := (sk.drop 16).take 16,
                  messageID := 256 * sk.getD 32 0 + sk.getD 33 0 } := by
  have hb33 : sk.getD 33 0 < 256 := getD_lt_256 hbytes (by omega)
  unfold setSessionKeyStep
  rw [if_neg hcheck]
  have e1 : jsSlice sk 0 16 = sk.take 16 := by simp [jsSlice]
  have e2 : jsSlice sk 16 32 = (sk.drop 16).take 16 := by
    unfold jsSlice
    rw [List.drop_take]
  have e3 : Nat.lor (Nat.shiftLeft (sk.getD 32 0) 8) (sk.getD 33 0) =
      256 * sk.getD 32 0 + sk.getD 33 0 :=
    lor_shiftLeft_byte _ _ hb33
  rw [e1, e2, e3]

/-- C5 witness: for session material of 40 bytes 0x02, the derived key
and IV are 16 bytes of 0x02 and the initial message id is 0x0202 = 514. -/
theorem C5_session_material_derivation_witness :
    setSessionKeyStep (List.replicate 40 2) [] [] =
      Except.ok { key := List.replicate 16 2, iv := List.replicate 16 2,
                  messageID := 514 } := by
  have h := C5_session_material_derivation (List.replicate 40 2) [] []
    (by decide) (by decide) (by decide)
  rw [h]
  rfl

/-! ## Claim C6 -/

/-- C6: an inbound UpdateBegin whose payload is exactly 12 bytes while
both the updates-enabled and updates-forced flags are false is answered
with an ack carrying code 5.03 and the current message id, an error
event is emitted, no file buffer is allocated, no Chunk or UpdateDone
listener is installed, and the message-id counter is unchanged. -/
theorem C6_update_begin_refused (payload : List Nat) (filesHasFileName : Bool)
    (messageID : Nat) (hlen : payload.length = 12) :
    receiveFile payload false false filesHasFileName messageID =
      { reply := { ack := true, code := "5.03", confirmable := false,
                   messageId := messageID, payload := [], tokenEcho := true },
        errorEmitted := true, bufferAllocated := none,
        chunkListenerInstalled := false, updateDoneListenerInstalled := false,
        messageIDAfter := messageID } := by
  simp [receiveFile, hlen]

/-- C6 witness: the refusal theorem evaluated on a concrete 12-byte
UpdateBegin payload with message-id counter 7. -/
theorem C6_update_begin_refused_witness :
    receiveFile (List.replicate 12 0) false false false 7 =
      { reply := { ack := true, code := "5.03", confirmable := false,
                   messageId := 7, payload := [], tokenEcho := true },
        errorEmitted := true, bufferAllocated := none,
        chunkListenerInstalled := false, updateDoneListenerInstalled := false,
        messageIDAfter := 7 } :=
  C6_update_begin_refused (List.replicate 12 0) false 7 (by decide)

/-! ## Claim C7 -/

theorem crc32Round_lt {c : Nat} (hc : c < 2 ^ 32) : crc32Round c < 2 ^ 32 := by
  unfold crc32Round
  split
  · exact Nat.xor_lt_two_pow (by omega) (by norm_num)
  · omega

theorem crc32Byte_lt {c b : Nat} (hc : c < 2 ^ 32) (hb : b < 256) :
    crc32Byte c b < 2 ^ 32 := by
  unfold crc32Byte
  have h0 : Nat.xor c b < 2 ^ 32 :=
    Nat.xor_lt_two_pow hc (lt_trans hb (by norm_num))
  exact crc32Round_lt (crc32Round_lt (crc32Round_lt (crc32Round_lt
    (crc32Round_lt (crc32Round_lt (crc32Round_lt (crc32Round_lt h0)))))))

theorem crc32_lt {data : List Nat} (hd : ∀ x ∈ data, x < 256) :
    crc32 data < 2 ^ 32 := by
  unfold crc32
  have main : ∀ (l : List Nat), (∀ x ∈ l, x < 256) → ∀ c : Nat, c < 2 ^ 32 →
      l.foldl crc32Byte c < 2 ^ 32 := by
    intro l
    induction l with
    | nil =>
      intro _ c hc
      simpa using hc
    | cons a t ih =>
      intro hl c hc
      simp only [List.foldl_cons]
      exact ih (fun x hx => hl x (List.mem_cons_of_mem a hx)) _
        (crc32Byte_lt hc (hl a (List.mem_cons_self a t)))
  exact Nat.xor_lt_two_pow (main data hd 0xFFFFFFFF (by norm_num)) (by norm_num)

theorem beValue_four (a b c d : Nat) :
    beValue [a, b, c, d] = ((a * 256 + b) * 256 + c) * 256 + d := by
  simp [beValue, List.foldl]

theorem beValue_beBytes4 {n : Nat} (h : n < 2 ^ 32) :
    beValue (beBytes4 n) = n := by
  have h32 : n < 4294967296 := by omega
  show beValue [n / 2 ^ 24 % 256, n / 2 ^ 16 % 256, n / 2 ^ 8 % 256, n % 256] = n
  rw [beValue_four]
  norm_num
  omega

theorem beBytes4_beValue {a b c d : Nat} (ha : a < 256) (hb : b < 256)
    (hc : c < 256) (hd : d < 256) :
    beBytes4 (beValue [a, b, c, d]) = [a, b, c, d] := by
  rw [beValue_four]
  show [_, _, _, _] = [a, b, c, d]
  norm_num
  refine ⟨?_, ?_, ?_, ?_⟩ <;> omega

theorem list_len4 {α : Type} (l : List α) (h : l.length = 4) :
    ∃ a b c d, l = [a, b, c, d] := by
  rcases l with _ | ⟨a, l⟩
  · simp at h
  rcases l with _ | ⟨b, l⟩
  · simp at h
  rcases l with _ | ⟨c, l⟩
  · simp at h
  rcases l with _ | ⟨d, l⟩
  · simp at h
  rcases l with _ | ⟨e, l⟩
  · exact ⟨a, b, c, d, rfl⟩
  · simp at h

/-- Buffer.slice with nonnegative in-range indices is take-then-drop. -/
theorem jsSliceNode_of_nonneg (l : List Nat) (a b : Nat) (hb : b ≤ l.length) :
    jsSliceNode l (a : Int) (b : Int) = (l.take b).drop a := by
  simp only [jsSliceNode]
  rw [if_neg (by omega : ¬((a : Int) < 0)), if_neg (by omega : ¬((b : Int) < 0))]
  by_cases hab : min (b : Int) (l.length : Int) ≤ min (a : Int) (l.length : Int)
  · rw [if_pos hab]
    symm
    apply List.drop_eq_nil_of_le
    rw [List.length_take]
    omega
  · rw [if_neg hab]
    have h1 : (min (b : Int) (l.length : Int)).toNat = b := by omega
    have h2 : (min (a : Int) (l.length : Int)).toNat = a := by omega
    rw [h1, h2]

/-- The success slice of validateFirmwareFile: slice(24, length - 44)
under Node semantics, as an explicit take-then-drop.  For buffers
shorter than 44 bytes the negative end resolves to 2 * length - 44. -/
theorem jsSliceNode_success_slice (l : List Nat) :
    jsSliceNode l 24 ((l.length : Int) - 44) =
      (l.take (if l.length < 44 then 2 * l.length - 44 else l.length - 44)).drop
        24 := by
  simp only [jsSliceNode]
  rw [if_neg (by omega : ¬((24 : Int) < 0))]
  by_cases h44 : l.length < 44
  · rw [if_pos (by omega : ((l.length : Int) - 44) < 0), if_pos h44]
    by_cases hes : max ((l.length : Int) + ((l.length : Int) - 44)) 0 ≤
        min (24 : Int) (l.length : Int)
    · rw [if_pos hes]
      symm
      apply List.drop_eq_nil_of_le
      rw [List.length_take]
      omega
    · rw [if_neg hes]
      have h1 : (max ((l.length : Int) + ((l.length : Int) - 44)) 0).toNat =
          2 * l.length - 44 := by omega
      have h2 : (min (24 : Int) (l.length : Int)).toNat = 24 := by omega
      rw [h1, h2]
  · rw [if_neg (by omega : ¬(((l.length : Int) - 44) < 0)), if_neg h44]
    by_cases hes : min ((l.length : Int) - 44) (l.length : Int) ≤
        min (24 : Int) (l.length : Int)
    · rw [if_pos hes]
      symm
      apply List.drop_eq_nil_of_le
      rw [List.length_take]
      omega
    · rw [if_neg hes]
      have h1 : (min ((l.length : Int) - 44) (l.length : Int)).toNat =
          l.length - 44 := by omega
      have h2 : (min (24 : Int) (l.length : Int)).toNat = 24 := by omega
      rw [h1, h2]

/-- For a buffer of at least 4 bytes, slice(0, length - 4) is the buffer
without its 4-byte trailer. -/
theorem jsSliceNode_woCrc (l : List Nat) (h4 : 4 ≤ l.length) :
    jsSliceNode l 0 ((l.length : Int) - 4) = l.take (l.length - 4) := by
  have h := jsSliceNode_of_nonneg l 0 (l.length - 4) (by omega)
  have hc : (((l.length - 4 : Nat)) : Int) = (l.length : Int) - 4 := by omega
  rw [hc] at h
  simpa using h

/-- For a buffer of at least 4 bytes, slice(length - 4, length) is the
4-byte trailer. -/
theorem jsSliceNode_crcTail (l : List Nat) (h4 : 4 ≤ l.length) :
    jsSliceNode l ((l.length : Int) - 4) (l.length : Int) =
      l.drop (l.length - 4) := by
  have h := jsSliceNode_of_nonneg l (l.length - 4) l.length (le_refl _)
  have hc : (((l.length - 4 : Nat)) : Int) = (l.length : Int) - 4 := by omega
  rw [hc, List.take_length] at h
  exact h

/-- C7: for a buffer of length at least 4, validateFirmwareFile succeeds
exactly when the CRC-32 of all bytes but the last four equals the
big-endian value of those last four bytes; on mismatch it fails with the
crc-not-valid error; on success it yields slice(24, length - 44) of the
buffer, i.e. the bytes from offset 24 up to end index length - 44, where
for buffers shorter than 44 the negative end index resolves to
2 * length - 44 per Node Buffer.slice. -/
theorem C7_firmware_crc_validation (buf : List Nat) (h4 : 4 ≤ buf.length)
    (hb : ∀ x ∈ buf, x < 256) :
    ((∃ v, validateFirmwareFile buf = Except.ok v) ↔
       crc32 (buf.take (buf.length - 4)) = beValue (buf.drop (buf.length - 4))) ∧
    (crc32 (buf.take (buf.length - 4)) ≠ beValue (buf.drop (buf.length - 4)) →
       validateFirmwareFile buf =
         Except.error "Firmware validation failed: crc not valid") ∧
    (crc32 (buf.take (buf.length - 4)) = beValue (buf.drop (buf.length - 4)) →
       validateFirmwareFile buf =
         Except.ok
           ((buf.take
             (if buf.length < 44 then 2 * buf.length - 44
              else buf.length - 44)).drop 24)) := by
  have hlen4 : (buf.drop (buf.length - 4)).length = 4 := by
    rw [List.length_drop]
    omega
  obtain ⟨a, b, c, d, htail⟩ := list_len4 _ hlen4
  have hbt : ∀ x ∈ ([a, b, c, d] : List Nat), x < 256 := by
    rw [← htail]
    exact fun x hx => hb x (List.mem_of_mem_drop hx)
  have hcrcb : ∀ x ∈ buf.take (buf.length - 4), x < 256 :=
    fun x hx => hb x (List.mem_of_mem_take hx)
  have key : crc32Bytes (buf.take (buf.length - 4)) = buf.drop (buf.length - 4)
      ↔ crc32 (buf.take (buf.length - 4)) = beValue (buf.drop (buf.length - 4)) := by
    constructor
    · intro h
      have h2 := congrArg beValue h
      rwa [crc32Bytes, beValue_beBytes4 (crc32_lt hcrcb)] at h2
    · intro h
      rw [crc32Bytes, h, htail]
      exact beBytes4_beValue (hbt a (by simp)) (hbt b (by simp))
        (hbt c (by simp)) (hbt d (by simp))
  have hval : validateFirmwareFile buf =
      if crc32Bytes (buf.take (buf.length - 4)) ≠ buf.drop (buf.length - 4) then
        Except.error "Firmware validation failed: crc not valid"
      else
        Except.ok
          ((buf.take
            (if buf.length < 44 then 2 * buf.length - 44
             else buf.length - 44)).drop 24) := by
    simp only [validateFirmwareFile]
    rw [jsSliceNode_woCrc buf h4, jsSliceNode_crcTail buf h4,
        jsSliceNode_success_slice buf]
  by_cases hcrc : crc32 (buf.take (buf.length - 4)) =
      beValue (buf.drop (buf.length - 4))
  · have hok : validateFirmwareFile buf =
        Except.ok
          ((buf.take
            (if buf.length < 44 then 2 * buf.length - 44
             else buf.length - 44)).drop 24) := by
      rw [hval, if_neg (by simpa using key.mpr hcrc)]
    exact ⟨⟨fun _ => hcrc, fun _ => ⟨_, hok⟩⟩, fun hne => absurd hcrc hne,
           fun _ => hok⟩
  · have herr : validateFirmwareFile buf =
        Except.error "Firmware validation failed: crc not valid" := by
      rw [hval, if_pos (fun heq => hcrc (key.mp heq))]
    refine ⟨⟨fun hex => ?_, fun heq => absurd heq hcrc⟩, fun _ => herr,
            fun heq => absurd heq hcrc⟩
    obtain ⟨v, hv⟩ := hex
    rw [herr] at hv
    exact absurd hv (by simp)

set_option maxRecDepth 4000 in
/-- C7 witness: a CRC-valid 40-byte buffer (36 zero bytes followed by
their big-endian CRC-32 6a b6 b2 d5).  The success slice has negative
end index 40 - 44 = -4, which Node resolves to offset 36, so validation
yields the 12 zero bytes at offsets 24..35. -/
theorem C7_firmware_crc_validation_witness :
    validateFirmwareFile (List.replicate 36 0 ++ [106, 182, 178, 213]) =
      Except.ok (List.replicate 12 0) := by
  have h := (C7_firmware_crc_validation
    (List.replicate 36 0 ++ [106, 182, 178, 213]) (by decide) (by decide)).2.2
    (by decide)
  exact h

/-! ## Claim C8 -/

/-- C8: for an inbound function call naming a registered function, with
args within the 622-byte limit and the owner check passed, a callback
returning a value is answered with response code 2.04, the token of the
request, and a payload that is the 4-byte big-endian signed 32-bit
encoding of the returned integer. -/
theorem C8_function_result_encoding (functionsMap : RegMap String)
    (owners : Option (List String)) (functionName args caller : String)
    (sp : ServerPacket) (v : Int) (flags : String) (messageID : Nat)
    (hargs : args.length ≤ 622)
    (hfn : lookupReg functionsMap functionName = some flags)
    (howner : (flags == "OWNER_ONLY"
        && (match owners with
            | none => true
            | some os => !(os.contains caller))) = false) :
    sendFunctionResult true functionsMap owners functionName args caller sp
        (Except.ok v) messageID =
      (some { ack := false, code := "2.04", messageId := nextMessageID messageID,
              payload := toBinaryInt32 v, token := sp.token },
       nextMessageID messageID) ∧
    (toBinaryInt32 v).length = 4 ∧
    (∀ x ∈ toBinaryInt32 v, x < 256) ∧
    (beValue (toBinaryInt32 v) : Int) = v % 2 ^ 32 := by
  have hu : ((v % (2 : Int) ^ 32).toNat : Int) = v % 2 ^ 32 :=
    Int.toNat_of_nonneg (Int.emod_nonneg v (by norm_num))
  have hulty : (v % (2 : Int) ^ 32).toNat < 2 ^ 32 := by
    have := Int.emod_lt_of_pos v (show (0 : Int) < 2 ^ 32 by norm_num)
    omega
  refine ⟨?_, ?_, ?_, ?_⟩
  · unfold sendFunctionResult
    rw [if_neg (by simp), if_neg (by omega), hfn]
    simp only [howner, Bool.false_eq_true, if_false]
  · rfl
  · intro x hx
    unfold toBinaryInt32 beBytes4 at hx
    simp only [List.mem_cons, List.not_mem_nil, or_false] at hx
    rcases hx with h | h | h | h <;> omega
  · unfold toBinaryInt32
    rw [beValue_beBytes4 hulty]
    exact hu

/-- C8 witness: the registered function add with empty flags, no owners
restriction, args of 3 bytes and return value 42 yields a 2.04 reply
echoing token 0xAB with payload 00 00 00 2A. -/
theorem C8_function_result_encoding_witness :
    sendFunctionResult true [("add", "")] none "add" "1,2" "c"
        { messageId := 9, token := [171] } (Except.ok 42) 4 =
      (some { ack := false, code := "2.04", messageId := 5,
              payload := [0, 0, 0, 42], token := [171] }, 5) := by
  have h := (C8_function_result_encoding [("add", "")] none "add" "1,2" "c"
    { messageId := 9, token := [171] } 42 "" 4 (by decide) (by decide)
    (by decide)).1
  exact h

/-! ## Claim C9 -/

/-- Keys present in a registry survive the subscribe call made by
finalizeHandshake and appear in the list of replayed subscriptions. -/
theorem mem_finalizeHandshakeSubs {m : RegMap SubscriptionType} {k : String}
    (h : mapHas m k = true) : k ∈ (finalizeHandshakeSubs m).2 := by
  have hk : k ∈ regKeys m := (mapHas_iff_mem_regKeys m k).mp h
  show k ∈ regKeys (subscribe m "iotready" none).2
  unfold subscribe
  split
  · exact hk
  · split
    · exact hk
    · exact mem_regKeys_mapSet "iotready" _ hk

/-- C9: the internal iotready subscription goes through the same
capacity-checked subscribe path as user subscriptions.  When the
registry already holds 4 subscriptions at handshake completion, the
iotready registration returns false, the registry is unchanged and no
iotready handler is attached for the session; below capacity it
registers and occupies a slot. -/
theorem C9_iotready_subscription (subs : RegMap SubscriptionType) :
    (mapSize subs = 4 → mapHas subs "iotready" = false →
       (subscribe subs "iotready" none).1 = false ∧
       (finalizeHandshakeSubs subs).1 = subs ∧
       "iotready" ∉ (finalizeHandshakeSubs subs).2) ∧
    (mapSize subs < 4 →
       (subscribe subs "iotready" none).1 = true ∧
       mapHas (finalizeHandshakeSubs subs).1 "iotready" = true) := by
  have hname : ¬(("iotready" : String).length > 64) := by decide
  constructor
  · intro h4 hhas
    have hsub : subscribe subs "iotready" none = (false, subs) := by
      unfold subscribe
      rw [if_neg hname, if_pos (by omega : mapSize subs ≥ 4)]
    refine ⟨by rw [hsub], ?_, ?_⟩
    · show (subscribe subs "iotready" none).2 = subs
      rw [hsub]
    · show "iotready" ∉ regKeys (subscribe subs "iotready" none).2
      rw [hsub]
      intro hmem
      have := (mapHas_iff_mem_regKeys subs "iotready").mpr hmem
      rw [hhas] at this
      exact absurd this (by simp)
  · intro hlt
    have hsub : subscribe subs "iotready" none =
        (true, mapSet subs "iotready" SubscriptionType.ALL_DEVICES) := by
      unfold subscribe
      rw [if_neg hname, if_neg (by omega)]
    refine ⟨by rw [hsub], ?_⟩
    show mapHas (subscribe subs "iotready" none).2 "iotready" = true
    rw [hsub]
    exact mapHas_mapSet_self subs "iotready" SubscriptionType.ALL_DEVICES

/-- C9 witness: with four user subscriptions already registered the
iotready registration fails; with an empty registry it succeeds. -/
theorem C9_iotready_subscription_witness :
    (subscribe [("a", SubscriptionType.ALL_DEVICES),
                ("b", SubscriptionType.ALL_DEVICES),
                ("c", SubscriptionType.ALL_DEVICES),
                ("d", SubscriptionType.ALL_DEVICES)] "iotready" none).1 = false ∧
    (subscribe ([] : RegMap SubscriptionType) "iotready" none).1 = true := by
  refine ⟨((C9_iotready_subscription _).1 (by decide) (by decide)).1,
          ((C9_iotready_subscription _).2 (by decide)).1⟩

/-! ## Claim C10 -/

/-- C10: unsubscribe never touches the subscription registry: it is a
no-op when disconnected, and when connected it only removes the live
event listener of a registered name; a name registered before
unsubscribe is still registered afterwards and is replayed by the next
successful handshake. -/
theorem C10_unsubscribe_preserves_registry (s : SessionSubs)
    (eventName : String) :
    (unsubscribe s eventName).1.subscriptionsMap = s.subscriptionsMap ∧
    (s.isConnected = false → unsubscribe s eventName = (s, false)) ∧
    (s.isConnected = true → ∀ v,
       lookupReg s.subscriptionsMap eventName = some v →
       unsubscribe s eventName =
         ({ s with listeners := s.listeners.erase eventName }, false)) ∧
    (mapHas s.subscriptionsMap eventName = true →
       mapHas (unsubscribe s eventName).1.subscriptionsMap eventName = true ∧
       eventName ∈
         (finalizeHandshakeSubs (unsubscribe s eventName).1.subscriptionsMap).2) := by
  have hmap : (unsubscribe s eventName).1.subscriptionsMap =
      s.subscriptionsMap := by
    unfold unsubscribe
    cases hc : s.isConnected with
    | false => rfl
    | true =>
      cases hl : lookupReg s.subscriptionsMap eventName with
      | none => simp [hl]
      | some v => simp [hl]
  refine ⟨hmap, ?_, ?_, ?_⟩
  · intro hc
    unfold unsubscribe
    rw [hc]
    rfl
  · intro hc v hl
    unfold unsubscribe
    rw [hc, hl]
    rfl
  · intro hhas
    rw [hmap]
    exact ⟨hhas, mem_finalizeHandshakeSubs hhas⟩

/-- C10 witness: a connected session with the single subscription news
and its live listener: unsubscribe removes the listener, keeps the
registry entry and the name is still replayed at the next handshake. -/
theorem C10_unsubscribe_preserves_registry_witness :
    unsubscribe { isConnected := true,
                  subscriptionsMap := [("news", SubscriptionType.ALL_DEVICES)],
                  listeners := ["news"] } "news" =
      ({ isConnected := true,
         subscriptionsMap := [("news", SubscriptionType.ALL_DEVICES)],
         listeners := [] }, false) ∧
    "news" ∈
      (finalizeHandshakeSubs
        (unsubscribe { isConnected := true,
                       subscriptionsMap := [("news", SubscriptionType.ALL_DEVICES)],
                       listeners := ["news"] } "news").1.subscriptionsMap).2 := by
  have h := C10_unsubscribe_preserves_registry
    { isConnected := true,
      subscriptionsMap := [("news", SubscriptionType.ALL_DEVICES)],
      listeners := ["news"] } "news"
  exact ⟨h.2.2.1 rfl SubscriptionType.ALL_DEVICES (by decide),
         (h.2.2.2 (by decide)).2⟩

end Trackle
